import Mathlib

/-!
Shallow embedding of the jet template-engine core (Set / Template / Loader /
execution entry) for checking the natural-language specification against the
code.  Pure Go functions become Lean functions; the template cache is passed
as explicit state; loader interactions are recorded in an event trace so that
"no loader access" claims are statable.
-/

namespace Jet

/-! ### Go `path` package helpers

The source calls `filepath.ToSlash`, `path.IsAbs`, `path.Dir`, `path.Join`,
`path.Base` and (through `Join`/`Dir`) `path.Clean`.  These are embedded here
over `List Char`, following the Go standard-library algorithms. -/

/-- `filepath.ToSlash`: on the modelled slash-separated platform the path
separator is already `/`, so this is the identity. -/
def toSlash (p : String) : String := p

/-- `path.IsAbs`: `len(path) > 0 && path[0] == '/'`. -/
def isAbs (p : String) : Bool :=
  match p.toList with
  | [] => false
  | c :: _ => c = '/'

/-- Split a character list on `/`, like `strings.Split` on the separator. -/
def chSplit : List Char → List (List Char)
  | [] => [[]]
  | c :: rest =>
    let r := chSplit rest
    if c = '/' then [] :: r
    else
      match r with
      | [] => [[c]]
      | seg :: segs => (c :: seg) :: segs

/-- One step of `path.Clean`'s segment processing: skip empty and `.`
segments, let `..` pop the last real segment (at the root it disappears, in a
relative path it accumulates), push everything else.  The accumulator holds
the output segments in reverse order. -/
def cleanStep (rooted : Bool) (acc : List (List Char)) (seg : List Char) : List (List Char) :=
  if seg = [] ∨ seg = ['.'] then acc
  else if seg = ['.', '.'] then
    match acc with
    | [] => if rooted then [] else [['.', '.']]
    | a :: rest => if a = ['.', '.'] then ['.', '.'] :: a :: rest else rest
  else seg :: acc

/-- `path.Clean`: lexical cleaning of a slash-separated path. -/
def goClean (p : String) : String :=
  if p = "" then "."
  else
    let rooted := isAbs p
    let segs := ((chSplit p.toList).foldl (cleanStep rooted) []).reverse
    let core := String.mk (List.intercalate ['/'] segs)
    if rooted then "/" ++ core
    else if core = "" then "." else core

/-- `path.Join` restricted to two elements: empty elements are skipped, the
rest are joined with `/` and cleaned; all-empty input yields `""`. -/
def goJoin (a b : String) : String :=
  if a = "" ∧ b = "" then ""
  else if a = "" then goClean b
  else if b = "" then goClean a
  else goClean (a ++ "/" ++ b)

/-- `path.Dir`: everything up to and including the final `/` (empty when no
slash occurs), cleaned. -/
def goDir (p : String) : String :=
  goClean (String.mk ((p.toList.reverse.dropWhile (fun c => c ≠ '/')).reverse))

/-- `path.Base`: the last element of the path after trailing slashes are
removed; `"."` for the empty path, `"/"` for an all-slash path. -/
def goBase (p : String) : String :=
  if p = "" then "."
  else
    let stripped := (p.toList.reverse.dropWhile (fun c => c = '/')).reverse
    if stripped = [] then "/"
    else String.mk ((stripped.reverse.takeWhile (fun c => c ≠ '/')).reverse)

/-! ### Dynamic values and scopes -/

/-- A concrete stand-in for Go's `interface{}` values stored in scopes. -/
inductive GoVal where
  | vstr : String → GoVal
  | vint : Int → GoVal
  | vfunc : Nat → GoVal
deriving DecidableEq, Repr

/-- A `reflect.Value`: either the zero Value or the box produced by
`reflect.ValueOf` around an `interface{}` value. -/
inductive RValue where
  | zeroValue : RValue
  | valueOf : GoVal → RValue
deriving DecidableEq, Repr

/-- `type VarMap map[string]reflect.Value`; modelled as an association list
whose head is the most recent write (last write wins on lookup). -/
abbrev VarMap := List (String × RValue)

/-- Go map read `m[k]`: first (most recent) binding wins. -/
def mapLookup {β : Type} (k : String) : List (String × β) → Option β
  | [] => none
  | (k2, v) :: rest => if k = k2 then some v else mapLookup k rest

/-- `VarMap.Set`: `scope[name] = reflect.ValueOf(v)`. -/
def VarMap.set (scope : VarMap) (name : String) (v : GoVal) : VarMap :=
  (name, RValue.valueOf v) :: scope

/-! ### Template entity

The `Template` struct itself lives in a file outside the excerpt (only its
uses appear here); its fields are taken from the uses in the source and the
data model of the spec: parse name, node-tree root, optional extends link,
ordered imports, processed-blocks table, owning-set back-reference. -/

/-- An opaque block node; only its identity matters to this core. -/
structure BlockNode where
  id : Nat
deriving DecidableEq, Repr

/-- The opaque node-tree root produced by the external parser (`Root` is a
list node whose `Nodes` the evaluator walks). -/
structure ListNode where
  nodes : List Nat
deriving DecidableEq, Repr

/-- Block table: map from block name to block node. -/
abbrev Blocks := List (String × BlockNode)

inductive Template where
  | mk (parseName : String) (root : ListNode) (extendsLink : Option Template)
       (imports : List Template) (processedBlocks : Blocks) (setId : Nat)

def Template.parseName : Template → String
  | .mk pn _ _ _ _ _ => pn

def Template.root : Template → ListNode
  | .mk _ r _ _ _ _ => r

def Template.extendsLink : Template → Option Template
  | .mk _ _ e _ _ _ => e

def Template.processedBlocks : Template → Blocks
  | .mk _ _ _ _ b _ => b

def Template.setId : Template → Nat
  | .mk _ _ _ _ _ s => s

/-- The loop `for t.extends != nil { t = t.extends }` from `ExecuteI18N`:
walk the extends chain to the rootmost ancestor. -/
def rootmost : Template → Template
  | .mk pn r none i b s => .mk pn r none i b s
  | .mk _ _ (some parent) _ _ _ => rootmost parent

/-! ### Errors, loader, set -/

/-- The error conditions produced by this core (`fmt.Errorf`/`errors.New`
values in the source, the execution fault from the recovery boundary). -/
inductive JetError where
  | templateNotFound (path : String)
  | invalidTemplatePath
  | loadError (path : String)
  | parseError (msg : String)
  | executionFault (msg : String)
deriving DecidableEq, Repr

/-- The `Loader` capability interface: `Exists` (the returned canonical path
is discarded by every caller in the source, so only the boolean is kept) and
`Open` combined with `ioutil.ReadAll` (`none` models an open/read error). -/
structure Loader where
  pathExists : String → Bool
  openFile : String → Option String

/-- A loader event, recorded so that claims about loader access are statable. -/
inductive LoaderEvent where
  | probeExists (path : String)
  | openFile (path : String)
deriving DecidableEq, Repr

/-- The external parser (`s.parse`), per the spec an external collaborator
with a fixed contract: given a canonical path and source text it returns a
Template or a parse error. -/
abbrev ParseFn := String → String → Except JetError Template

/-- The `Set` struct: loader, template cache, global scope, extension list,
development-mode flag.  The escapee, delimiters and the two mutexes are not
modelled (single-threaded shallow embedding). -/
structure GoSet where
  loader : Loader
  templates : List (String × Template)
  globals : VarMap
  extensions : List String
  developmentMode : Bool

def defaultExtensions : List String :=
  ["", ".jet", ".html.jet", ".jet.html"]

/-! ### Resolution and caching -/

/-- The loop body of `getTemplateFromCache`: probe the cache at
`templatePath + extension` for each extension in order. -/
def getTemplateFromCacheAux (templates : List (String × Template)) (templatePath : String) :
    List String → Option Template
  | [] => none
  | extension :: rest =>
    let canonicalPath := templatePath ++ extension
    match mapLookup canonicalPath templates with
    | some t => some t
    | none => getTemplateFromCacheAux templates templatePath rest

def getTemplateFromCache (s : GoSet) (templatePath : String) : Option Template :=
  getTemplateFromCacheAux s.templates templatePath s.extensions

/-- `loadFromFile`: open the resource via the loader, read it and hand the
contents to the parser bound to that path.  The `cacheAfterParsing` flag is
forwarded to the external parser in the source and does not affect this
core's state, so it is not threaded into the pure parser model. -/
def loadFromFile (parseFn : ParseFn) (s : GoSet) (templatePath : String) :
    Except JetError Template × List LoaderEvent :=
  match s.loader.openFile templatePath with
  | none => (Except.error (JetError.loadError templatePath), [LoaderEvent.openFile templatePath])
  | some content => (parseFn templatePath content, [LoaderEvent.openFile templatePath])

/-- The loop body of `getTemplateFromLoader`: probe the loader at
`templatePath + extension` for each extension in order; the first existence
hit is loaded; otherwise the lookup fails with *TemplateNotFound* naming
`templatePath`. -/
def getTemplateFromLoaderAux (parseFn : ParseFn) (s : GoSet) (templatePath : String) :
    List String → Except JetError Template × List LoaderEvent
  | [] => (Except.error (JetError.templateNotFound templatePath), [])
  | extension :: rest =>
    let canonicalPath := templatePath ++ extension
    if s.loader.pathExists canonicalPath then
      ((loadFromFile parseFn s canonicalPath).1,
       LoaderEvent.probeExists canonicalPath :: (loadFromFile parseFn s canonicalPath).2)
    else
      ((getTemplateFromLoaderAux parseFn s templatePath rest).1,
       LoaderEvent.probeExists canonicalPath ::
         (getTemplateFromLoaderAux parseFn s templatePath rest).2)

def getTemplateFromLoader (parseFn : ParseFn) (s : GoSet) (templatePath : String) :
    Except JetError Template × List LoaderEvent :=
  getTemplateFromLoaderAux parseFn s templatePath s.extensions

/-- `getTemplate`: outside development mode probe the cache first; on a miss
go to the loader and, on success with `cacheAfterParsing` outside development
mode, insert the template into the cache under `templatePath`.  Returns the
result, the updated set and the loader-event trace. -/
def getTemplate (parseFn : ParseFn) (s : GoSet) (templatePath : String)
    (cacheAfterParsing : Bool) :
    Except JetError Template × GoSet × List LoaderEvent :=
  let cached := if s.developmentMode then none else getTemplateFromCache s templatePath
  match cached with
  | some t => (Except.ok t, s, [])
  | none =>
    let res := getTemplateFromLoader parseFn s templatePath
    match res.1 with
    | Except.ok t =>
      if cacheAfterParsing && !s.developmentMode then
        (Except.ok t, { s with templates := (templatePath, t) :: s.templates }, res.2)
      else (Except.ok t, s, res.2)
    | Except.error e => (Except.error e, s, res.2)

/-- The path rewriting performed by `getSiblingTemplate` before it calls
`getTemplate`: slash-normalize both paths and, when `templatePath` is not
absolute, join it against the directory of `siblingPath`. -/
def siblingResolve (templatePath siblingPath : String) : String :=
  let tp := toSlash templatePath
  let sp := toSlash siblingPath
  if isAbs tp then tp else goJoin (goDir sp) tp

def getSiblingTemplate (parseFn : ParseFn) (s : GoSet) (templatePath siblingPath : String)
    (cacheAfterParsing : Bool) :
    Except JetError Template × GoSet × List LoaderEvent :=
  getTemplate parseFn s (siblingResolve templatePath siblingPath) cacheAfterParsing

/-- `GetTemplate`: sibling-relative resolution with the sibling fixed to the
root `/` and caching enabled. -/
def GetTemplate (parseFn : ParseFn) (s : GoSet) (templatePath : String) :
    Except JetError Template × GoSet × List LoaderEvent :=
  getSiblingTemplate parseFn s templatePath "/" true

/-- `Parse`: the explicit, non-caching parse entry point.  The returned flag
records whether the external parser was reached (the cache is never written
on this path, `cacheAfterParsing` is `false`). -/
def ParseTemplate (parseFn : ParseFn) (s : GoSet) (templatePath contents : String) :
    Except JetError Template × Bool :=
  let tp := toSlash templatePath
  if goBase tp = "." ∨ goBase tp = "/" then
    (Except.error JetError.invalidTemplatePath, false)
  else
    (parseFn (goJoin "/" tp) contents, true)

/-- `AddGlobal`: `s.globals[key] = reflect.ValueOf(i)`. -/
def AddGlobal (s : GoSet) (key : String) (i : GoVal) : GoSet :=
  { s with globals := (key, RValue.valueOf i) :: s.globals }

/-- `LookupGlobal`: `val, found = s.globals[key]`. -/
def LookupGlobal (s : GoSet) (key : String) : Option RValue :=
  mapLookup key s.globals

/-! ### Execution entry and pooled runtime state -/

/-- A translator handle; the interface is passed through opaquely by this
core, so only its identity is modelled. -/
structure Translator where
  id : Nat
deriving DecidableEq, Repr

/-- An output sink (`io.Writer`) handle, passed through opaquely. -/
structure Writer where
  id : Nat
deriving DecidableEq, Repr

/-- The pooled `Runtime` state, restricted to the fields this core assigns in
`ExecuteI18N`: blocks, translator, variables, owning set, output sink and the
root data context. -/
structure Runtime where
  blocks : Blocks
  translator : Option Translator
  vars : VarMap
  setId : Nat
  writer : Writer
  context : RValue
deriving DecidableEq, Repr

/-- Outcome of the external evaluator (`st.executeList`): normal return, or
an internal fault (panic). -/
inductive ExecOutcome where
  | normal
  | fault (msg : String)
deriving DecidableEq, Repr

/-- The external node-tree evaluator: given the runtime state and the root
list node it renders output (not modelled) and may raise a fault. -/
abbrev Evaluator := Runtime → ListNode → ExecOutcome

/-- Result of one `Execute`/`ExecuteI18N` call: the returned error, the
runtime state observable by the evaluator, and the node tree it was asked to
evaluate. -/
structure ExecResult where
  err : Option JetError
  stateAtEval : Runtime
  evalRoot : ListNode
deriving DecidableEq, Repr

/-- `ExecuteI18N`: install this invocation's bindings into the pooled
runtime state (the root data context only when `data` is non-nil), walk the
extends chain to the rootmost template, and run the evaluator on its root.

Modelled from the spec: the body of the deferred `st.recover(&err)` is not in
the excerpt; per the spec it is the single recovery boundary that converts
any internal fault raised during evaluation into an ordinary returned error
(and releases the state back to the pool), which is modelled here by mapping
a `fault` outcome of the evaluator to an `executionFault` error. -/
def ExecuteI18N (evalList : Evaluator) (pooled : Runtime) (t : Template)
    (translator : Option Translator) (w : Writer) (vars : VarMap)
    (data : Option GoVal) : ExecResult :=
  let st0 : Runtime :=
    { pooled with
      blocks := t.processedBlocks
      translator := translator
      vars := vars
      setId := t.setId
      writer := w }
  let tRoot := rootmost t
  let st : Runtime :=
    match data with
    | some d => { st0 with context := RValue.valueOf d }
    | none => st0
  match evalList st tRoot.root with
  | ExecOutcome.normal => { err := none, stateAtEval := st, evalRoot := tRoot.root }
  | ExecOutcome.fault m =>
    { err := some (JetError.executionFault m), stateAtEval := st, evalRoot := tRoot.root }

/-- `Execute(w, variables, data)` is `ExecuteI18N(nil, w, variables, data)`. -/
def Execute (evalList : Evaluator) (pooled : Runtime) (t : Template) (w : Writer)
    (vars : VarMap) (data : Option GoVal) : ExecResult :=
  ExecuteI18N evalList pooled t none w vars data

/-! ### Concrete fixtures used by witnesses and counterexamples -/

/-- A loader over an explicit file list, the shape of the in-memory loader. -/
def listLoader (files : List (String × String)) : Loader :=
  { pathExists := fun p => (mapLookup p files).isSome
    openFile := fun p => mapLookup p files }

/-- A concrete parser: wraps path and contents into a leaf template. -/
def parseF0 : ParseFn :=
  fun p _ => Except.ok (Template.mk p (ListNode.mk []) none [] [] 0)

/-- A set whose loader holds only `/x.jet`, with the default extension list,
outside development mode. -/
def set0 : GoSet :=
  { loader := listLoader [("/x.jet", "body")]
    templates := []
    globals := []
    extensions := defaultExtensions
    developmentMode := false }

/-- The template `parseF0` produces for `/x.jet`. -/
def tmpl0 : Template := Template.mk "/x.jet" (ListNode.mk []) none [] [] 0

/-- A set whose loader holds both `/x` and `/x.jet` (extension-probe
ambiguity), default extensions, outside development mode. -/
def set4 : GoSet :=
  { loader := listLoader [("/x", "plain"), ("/x.jet", "jet")]
    templates := []
    globals := []
    extensions := defaultExtensions
    developmentMode := false }

/-- A set configured with `SetExtensions([".jet"])` (no unqualified
candidate) whose loader holds `/x.jet`, outside development mode. -/
def set5 : GoSet :=
  { loader := listLoader [("/x.jet", "body")]
    templates := []
    globals := []
    extensions := [".jet"]
    developmentMode := false }

/-- A set with an empty loader, default extensions, outside development
mode. -/
def set8 : GoSet :=
  { loader := listLoader []
    templates := []
    globals := []
    extensions := defaultExtensions
    developmentMode := false }

/-- An evaluator that always faults. -/
def evalFault : Evaluator := fun _ _ => ExecOutcome.fault "boom"

/-- An evaluator that always returns normally. -/
def evalOk : Evaluator := fun _ _ => ExecOutcome.normal

/-- A pooled runtime state as a previous execution left it: its context
still holds that execution's data binding. -/
def stalePooled : Runtime :=
  { blocks := [("old", BlockNode.mk 7)]
    translator := some (Translator.mk 3)
    vars := [("v", RValue.valueOf (GoVal.vint 1))]
    setId := 9
    writer := Writer.mk 4
    context := RValue.valueOf (GoVal.vstr "stale") }

/-- The same pooled state with a zero context. -/
def freshPooled : Runtime :=
  { stalePooled with context := RValue.zeroValue }

/-- A base template with one block and no extends link. -/
def baseTmpl : Template :=
  Template.mk "/base.jet" (ListNode.mk [1, 2]) none [] [("content", BlockNode.mk 0)] 5

/-- A child template extending `baseTmpl`, overriding the block. -/
def childTmpl : Template :=
  Template.mk "/child.jet" (ListNode.mk [3]) (some baseTmpl) [] [("content", BlockNode.mk 1)] 5

/-- The cache state of `set0` after one successful `GetTemplate` on `/x`. -/
def set0cached : GoSet := { set0 with templates := [("/x", tmpl0)] }

/-- The template `parseF0` produces for the unqualified path `/x`. -/
def tmpl4 : Template := Template.mk "/x" (ListNode.mk []) none [] [] 0

/-! ### Helper lemmas -/

theorem append_eq_self_iff (p e : String) : p ++ e = p ↔ e = "" := by
  constructor
  · intro h
    have hlen : (p ++ e).length = p.length := by rw [h]
    rw [String.length_append] at hlen
    have hz : e.length = 0 := by omega
    cases e with
    | mk data =>
      cases data with
      | nil => rfl
      | cons c cs => simp [String.length] at hz
  · rintro rfl
    simp

/-- The rootmost ancestor has no extends link. -/
theorem rootmost_extendsLink_none : ∀ t : Template, (rootmost t).extendsLink = none
  | .mk pn r none i b s => by simp [rootmost, Template.extendsLink]
  | .mk pn r (some parent) i b s => by
    rw [rootmost]
    exact rootmost_extendsLink_none parent

/-- A cache miss over an extension list means every canonical candidate is
absent from the cache map. -/
theorem cacheAux_none_forall (tmpls : List (String × Template)) (q : String) :
    ∀ exts : List String, getTemplateFromCacheAux tmpls q exts = none →
      ∀ e ∈ exts, mapLookup (q ++ e) tmpls = none
  | [], _, e, he => absurd he (List.not_mem_nil e)
  | ext :: rest, h, e, he => by
    cases hm : mapLookup (q ++ ext) tmpls with
    | some t2 => simp [getTemplateFromCacheAux, hm] at h
    | none =>
      simp [getTemplateFromCacheAux, hm] at h
      cases he with
      | head => exact hm
      | tail _ htail => exact cacheAux_none_forall tmpls q rest h e htail

/-- After inserting a template under the bare logical path, a cache probe
for that logical path hits it, provided the extension list carries the
unqualified (empty) candidate and none of the qualified candidates were
already cached. -/
theorem cacheAux_insert_hit (tmpls : List (String × Template)) (q : String) (t : Template) :
    ∀ exts : List String, "" ∈ exts →
      (∀ e ∈ exts, mapLookup (q ++ e) tmpls = none) →
      getTemplateFromCacheAux ((q, t) :: tmpls) q exts = some t
  | [], hmem, _ => absurd hmem (List.not_mem_nil "")
  | ext :: rest, hmem, hnone => by
    by_cases he : ext = ""
    · subst he
      simp [getTemplateFromCacheAux, mapLookup]
    · have hq : ¬(q ++ ext = q) := fun h => he ((append_eq_self_iff q ext).mp h)
      have hrest : "" ∈ rest := by
        cases hmem with
        | head => exact absurd rfl he
        | tail _ htail => exact htail
      have ih := cacheAux_insert_hit tmpls q t rest hrest
        (fun x hx => hnone x (List.mem_cons_of_mem ext hx))
      simp [getTemplateFromCacheAux, mapLookup, hq,
        hnone ext (List.mem_cons_self ext rest), ih]

/-- When no extension candidate exists in the loader, the probe loop fails
with *TemplateNotFound* naming the (resolved) logical path, after probing
every candidate. -/
theorem loaderAux_not_found (parseF : ParseFn) (s : GoSet) (q : String) :
    ∀ exts : List String, (∀ e ∈ exts, s.loader.pathExists (q ++ e) = false) →
      getTemplateFromLoaderAux parseF s q exts =
        (Except.error (JetError.templateNotFound q),
         exts.map fun e => LoaderEvent.probeExists (q ++ e))
  | [], _ => rfl
  | ext :: rest, h => by
    have he := h ext (List.mem_cons_self ext rest)
    have ih := loaderAux_not_found parseF s q rest
      (fun x hx => h x (List.mem_cons_of_mem ext hx))
    simp [getTemplateFromLoaderAux, he, ih]

/-- Loading through the loader produces exactly one open event, whatever the
outcome. -/
theorem loadFromFile_events (parseF : ParseFn) (s : GoSet) (tp : String) :
    (loadFromFile parseF s tp).2 = [LoaderEvent.openFile tp] := by
  unfold loadFromFile
  cases s.loader.openFile tp <;> rfl

/-- The first extension candidate the loader reports as existing is the one
loaded; all candidates before it are only probed. -/
theorem loaderAux_first_hit (parseF : ParseFn) (s : GoSet) (q ext : String)
    (post : List String) :
    ∀ pre : List String, (∀ e ∈ pre, s.loader.pathExists (q ++ e) = false) →
      s.loader.pathExists (q ++ ext) = true →
      getTemplateFromLoaderAux parseF s q (pre ++ ext :: post) =
        ((loadFromFile parseF s (q ++ ext)).1,
         (pre.map fun e => LoaderEvent.probeExists (q ++ e)) ++
           LoaderEvent.probeExists (q ++ ext) :: (loadFromFile parseF s (q ++ ext)).2)
  | [], _, hhit => by simp [getTemplateFromLoaderAux, hhit]
  | e :: pre, hpre, hhit => by
    have he := hpre e (List.mem_cons_self e pre)
    have ih := loaderAux_first_hit parseF s q ext post pre
      (fun x hx => hpre x (List.mem_cons_of_mem e hx)) hhit
    simp [getTemplateFromLoaderAux, he, ih]

/-! ### Claim theorems -/

/-- Claim C10: after `AddGlobal(k, v)`, `LookupGlobal(k)` finds the entry and
returns the `reflect.ValueOf` box wrapping `v`, not the original value. -/
theorem lookupGlobal_after_addGlobal (s : GoSet) (k : String) (v : GoVal) :
    LookupGlobal (AddGlobal s k v) k = some (RValue.valueOf v) := by
  simp [LookupGlobal, AddGlobal, mapLookup]

/-- Claim C6: sibling-relative resolution leaves an absolute path unchanged,
and joins a relative path against the directory of the sibling path, so that
an extends reference `../base` in `/a/b/child` resolves to `/a/base` and not
to `/a/b/base`. -/
theorem siblingResolve_spec :
    (∀ p sp : String, isAbs p = true → siblingResolve p sp = p) ∧
    siblingResolve "../base" "/a/b/child" = goJoin (goDir "/a/b/child") "../base" ∧
    siblingResolve "../base" "/a/b/child" = "/a/base" ∧
    siblingResolve "../base" "/a/b/child" ≠ "/a/b/base" := by
  refine ⟨?_, rfl, by decide, by decide⟩
  intro p sp h
  simp [siblingResolve, toSlash, h]

/-- Witness for C6 at a concrete absolute path. -/
theorem siblingResolve_spec_witness :
    isAbs "/lay" = true ∧ siblingResolve "/lay" "/a/b/child" = "/lay" :=
  ⟨by decide, siblingResolve_spec.1 "/lay" "/a/b/child" (by decide)⟩

/-- Claim C7 counterexample: the path `..` has an empty final segment after
normalization (it normalizes to `/`), yet `Parse` does not reject it — the
check runs on the base name before normalization, so the parser is reached. -/
theorem parse_dotdot_not_rejected :
    goJoin "/" ".." = "/" ∧
    goBase (goJoin "/" "..") = "/" ∧
    (ParseTemplate parseF0 set8 ".." "text").2 = true := by
  refine ⟨by decide, by decide, rfl⟩

/-- Claim C7 (amended): `Parse` fails with *InvalidTemplatePath* (before any
loader, parser or cache interaction) exactly when the base name of the
slash-normalized input — computed before joining it to the root — is `.` or
`/`; in particular `Parse(".", "text")` and `Parse("/", "text")` fail this
way and never reach the parser. -/
theorem parse_invalid_path_iff (parseF : ParseFn) (s : GoSet) (p c : String) :
    (ParseTemplate parseF s p c = (Except.error JetError.invalidTemplatePath, false)
      ↔ goBase (toSlash p) = "." ∨ goBase (toSlash p) = "/") ∧
    ParseTemplate parseF s "." c = (Except.error JetError.invalidTemplatePath, false) ∧
    ParseTemplate parseF s "/" c = (Except.error JetError.invalidTemplatePath, false) := by
  refine ⟨?_, ?_, ?_⟩
  · unfold ParseTemplate toSlash
    by_cases h : goBase p = "." ∨ goBase p = "/"
    · simp [h]
    · simp [h]
  · unfold ParseTemplate toSlash
    rw [if_pos]
    exact Or.inl (by decide)
  · unfold ParseTemplate toSlash
    rw [if_pos]
    exact Or.inr (by decide)

/-- Claim C8 counterexample: a failed lookup of the relative path `x`
(resolved against the root to `/x`) reports *TemplateNotFound* for the
resolved path `/x`, not for the original caller-supplied path `x`. -/
theorem notFound_counterexample :
    (GetTemplate parseF0 set8 "x").1 = Except.error (JetError.templateNotFound "/x") ∧
    "/x" ≠ "x" :=
  ⟨rfl, by decide⟩

/-- Claim C8 (amended): when no extension candidate exists in the cache or
the loader, resolution fails with *TemplateNotFound* naming the resolved
logical path — the caller-supplied path after sibling-relative rewriting and
normalization, but before extension qualification — and returns no
Template. -/
theorem notFound_names_resolved_path (parseF : ParseFn) (s : GoSet) (tp sp : String)
    (cacheB : Bool)
    (hcache : getTemplateFromCache s (siblingResolve tp sp) = none)
    (hload : ∀ e ∈ s.extensions,
      s.loader.pathExists (siblingResolve tp sp ++ e) = false) :
    getSiblingTemplate parseF s tp sp cacheB =
      (Except.error (JetError.templateNotFound (siblingResolve tp sp)), s,
       s.extensions.map fun e => LoaderEvent.probeExists (siblingResolve tp sp ++ e)) := by
  have hl := loaderAux_not_found parseF s (siblingResolve tp sp) s.extensions hload
  cases hdev : s.developmentMode with
  | true => simp [getSiblingTemplate, getTemplate, getTemplateFromLoader, hdev, hl]
  | false => simp [getSiblingTemplate, getTemplate, getTemplateFromLoader, hdev, hcache, hl]

/-- Witness for C8 (amended): the concrete lookup of `x` on an empty loader. -/
theorem notFound_names_resolved_path_witness :
    getSiblingTemplate parseF0 set8 "x" "/" true =
      (Except.error (JetError.templateNotFound "/x"), set8,
       [LoaderEvent.probeExists "/x", LoaderEvent.probeExists "/x.jet",
        LoaderEvent.probeExists "/x.html.jet", LoaderEvent.probeExists "/x.jet.html"]) :=
  notFound_names_resolved_path parseF0 set8 "x" "/" true rfl (by decide)

/-- Claim C1 counterexample: the lookup of `/x` resolved through the loader
at canonical path `/x.jet`, yet the cache holds no entry under `/x.jet` and a
later cache probe for the extension-qualified name `/x.jet` misses. -/
theorem cache_key_counterexample :
    (GetTemplate parseF0 set0 "/x").1 = Except.ok tmpl0 ∧
    mapLookup "/x.jet" (GetTemplate parseF0 set0 "/x").2.1.templates = none ∧
    getTemplateFromCache (GetTemplate parseF0 set0 "/x").2.1 "/x.jet" = none :=
  ⟨rfl, rfl, rfl⟩

/-- Claim C1 (amended): outside development mode, a lookup with
`cacheOnSuccess` that misses the cache and finds the template through the
loader stores the resulting Template under the logical path `p` — the lookup
key before extension qualification, not the canonical path `p+ext` — so a
later cache probe for `p` (with the unqualified candidate in the extension
list) hits it. -/
theorem getTemplate_caches_under_logical_path (parseF : ParseFn) (s : GoSet)
    (p : String) (t : Template) (evs : List LoaderEvent)
    (hdev : s.developmentMode = false)
    (hcache : getTemplateFromCache s p = none)
    (hload : getTemplateFromLoader parseF s p = (Except.ok t, evs))
    (hempty : "" ∈ s.extensions) :
    getTemplate parseF s p true =
      (Except.ok t, { s with templates := (p, t) :: s.templates }, evs) ∧
    getTemplateFromCache { s with templates := (p, t) :: s.templates } p = some t := by
  constructor
  · simp [getTemplate, hdev, hcache, hload]
  · exact cacheAux_insert_hit s.templates p t s.extensions hempty
      (cacheAux_none_forall s.templates p s.extensions hcache)

/-- Witness for C1 (amended): the concrete lookup of `/x` through `/x.jet`. -/
theorem getTemplate_caches_under_logical_path_witness :
    getTemplate parseF0 set0 "/x" true =
      (Except.ok tmpl0, set0cached,
       [LoaderEvent.probeExists "/x", LoaderEvent.probeExists "/x.jet",
        LoaderEvent.openFile "/x.jet"]) ∧
    getTemplateFromCache set0cached "/x" = some tmpl0 :=
  getTemplate_caches_under_logical_path parseF0 set0 "/x" tmpl0
    [LoaderEvent.probeExists "/x", LoaderEvent.probeExists "/x.jet",
     LoaderEvent.openFile "/x.jet"] rfl rfl rfl (by decide)

/-- Claim C2: `ExecuteI18N` installs the invoked template's own
processed-blocks table (taken before following any extends link) into the
runtime state, and hands the evaluator the node tree of the rootmost
ancestor — the template reached by following the extends chain until the
extends link is nil. -/
theorem executeI18N_blocks_and_rootmost (evalList : Evaluator) (pooled : Runtime)
    (t : Template) (translator : Option Translator) (w : Writer) (vars : VarMap)
    (data : Option GoVal) :
    (ExecuteI18N evalList pooled t translator w vars data).stateAtEval.blocks
      = t.processedBlocks ∧
    (ExecuteI18N evalList pooled t translator w vars data).evalRoot
      = (rootmost t).root ∧
    (rootmost t).extendsLink = none := by
  refine ⟨?_, ?_, rootmost_extendsLink_none t⟩ <;>
  · unfold ExecuteI18N
    cases data <;> dsimp only <;> split <;> rfl

/-- Claim C3: any internal fault the evaluator raises while walking the node
tree is converted at the `Execute`/`ExecuteI18N` boundary into a returned
error (`executionFault`); a normal evaluation returns no error.  The call
always returns — the fault never propagates past the boundary. -/
theorem executeI18N_fault_contained (evalList : Evaluator) (pooled : Runtime)
    (t : Template) (translator : Option Translator) (w : Writer) (vars : VarMap)
    (data : Option GoVal) :
    (ExecuteI18N evalList pooled t translator w vars data).err =
      (match evalList (ExecuteI18N evalList pooled t translator w vars data).stateAtEval
          (ExecuteI18N evalList pooled t translator w vars data).evalRoot with
       | ExecOutcome.normal => none
       | ExecOutcome.fault m => some (JetError.executionFault m)) := by
  unfold ExecuteI18N
  cases data <;> dsimp only <;> split <;> simp_all

/-- Claim C4: with the default extension list, when the loader holds both
`p` and `p+".jet"`, resolution loads the exact path `p` (the unqualified
first candidate) and never touches `p+".jet"`; in general the first
extension candidate in configured order whose canonical path the loader
reports as existing is the one loaded. -/
theorem loader_first_candidate_wins :
    (∀ (parseF : ParseFn) (s : GoSet) (p ext : String) (pre post : List String),
      s.extensions = pre ++ ext :: post →
      (∀ e ∈ pre, s.loader.pathExists (p ++ e) = false) →
      s.loader.pathExists (p ++ ext) = true →
      getTemplateFromLoader parseF s p =
        ((loadFromFile parseF s (p ++ ext)).1,
         (pre.map fun e => LoaderEvent.probeExists (p ++ e)) ++
           LoaderEvent.probeExists (p ++ ext) :: (loadFromFile parseF s (p ++ ext)).2)) ∧
    (∀ (parseF : ParseFn) (s : GoSet) (p : String),
      s.extensions = defaultExtensions →
      s.loader.pathExists p = true →
      getTemplateFromLoader parseF s p =
        ((loadFromFile parseF s p).1,
         [LoaderEvent.probeExists p, LoaderEvent.openFile p])) := by
  constructor
  · intro parseF s p ext pre post hexts hpre hhit
    unfold getTemplateFromLoader
    rw [hexts]
    exact loaderAux_first_hit parseF s p ext post pre hpre hhit
  · intro parseF s p hexts hhit
    unfold getTemplateFromLoader
    rw [hexts]
    have h0 : s.loader.pathExists (p ++ "") = true := by
      rw [String.append_empty]; exact hhit
    have := loaderAux_first_hit parseF s p "" [".jet", ".html.jet", ".jet.html"]
      [] (by intro e he; exact absurd he (List.not_mem_nil e)) h0
    simpa [defaultExtensions, loadFromFile_events, String.append_empty] using this

/-- Witness for C4 at a loader holding both `/x` and `/x.jet`. -/
theorem loader_first_candidate_wins_witness :
    set4.loader.pathExists "/x" = true ∧
    getTemplateFromLoader parseF0 set4 "/x" =
      (Except.ok tmpl4, [LoaderEvent.probeExists "/x", LoaderEvent.openFile "/x"]) := by
  refine ⟨rfl, ?_⟩
  rw [loader_first_candidate_wins.2 parseF0 set4 "/x" rfl rfl]
  rfl

/-- Claim C5 counterexample: on a Set configured with extension list
`[".jet"]` (no unqualified candidate), a first successful `GetTemplate("/x")`
caches the template under `/x`, but the second call's cache probe only looks
for `/x.jet`, misses, and goes back to the loader — a second loader
Exists/Open access happens. -/
theorem second_lookup_reloads_counterexample :
    (GetTemplate parseF0 set5 "/x").1 = Except.ok tmpl0 ∧
    (GetTemplate parseF0 (GetTemplate parseF0 set5 "/x").2.1 "/x").2.2 =
      [LoaderEvent.probeExists "/x.jet", LoaderEvent.openFile "/x.jet"] ∧
    [LoaderEvent.probeExists "/x.jet", LoaderEvent.openFile "/x.jet"] ≠
      ([] : List LoaderEvent) :=
  ⟨rfl, rfl, by decide⟩

/-- Core of C5: a second `getTemplate` on the same resolved path returns the
very template value the first call produced, with no loader event, provided
the extension list carries the unqualified candidate. -/
theorem getTemplate_idem (parseF : ParseFn) (s : GoSet) (q : String) (t : Template)
    (s1 : GoSet) (evs : List LoaderEvent)
    (hdev : s.developmentMode = false) (hempty : "" ∈ s.extensions)
    (h1 : getTemplate parseF s q true = (Except.ok t, s1, evs)) :
    getTemplate parseF s1 q true = (Except.ok t, s1, []) := by
  cases hc : getTemplateFromCache s q with
  | some t2 =>
    have hfirst : getTemplate parseF s q true = (Except.ok t2, s, []) := by
      simp [getTemplate, hdev, hc]
    rw [hfirst] at h1
    simp only [Prod.mk.injEq, Except.ok.injEq] at h1
    obtain ⟨ht, hs, he⟩ := h1
    subst ht
    rw [← hs]
    simp [getTemplate, hdev, hc]
  | none =>
    cases hl : (getTemplateFromLoader parseF s q).1 with
    | error e =>
      have hfirst : getTemplate parseF s q true =
          (Except.error e, s, (getTemplateFromLoader parseF s q).2) := by
        simp [getTemplate, hdev, hc, hl]
      rw [hfirst] at h1
      simp at h1
    | ok t2 =>
      have hfirst : getTemplate parseF s q true =
          (Except.ok t2, { s with templates := (q, t2) :: s.templates },
           (getTemplateFromLoader parseF s q).2) := by
        simp [getTemplate, hdev, hc, hl]
      rw [hfirst] at h1
      simp only [Prod.mk.injEq, Except.ok.injEq] at h1
      obtain ⟨ht, hs, he⟩ := h1
      subst ht
      rw [← hs]
      have hhit : getTemplateFromCache { s with templates := (q, t2) :: s.templates } q
          = some t2 :=
        cacheAux_insert_hit s.templates q t2 s.extensions hempty
          (cacheAux_none_forall s.templates q s.extensions hc)
      rw [hdev] at hhit
      simp [getTemplate, hdev, hhit]

/-- Claim C5 (amended): outside development mode, on a Set whose extension
list carries the unqualified (empty) candidate — as the default list does —
a second `GetTemplate(p)` after a successful first call returns the
identical Template with no loader Exists/Open access. -/
theorem getTemplate_cache_idempotent (parseF : ParseFn) (s : GoSet) (p : String)
    (t : Template) (s1 : GoSet) (evs : List LoaderEvent)
    (hdev : s.developmentMode = false) (hempty : "" ∈ s.extensions)
    (h1 : GetTemplate parseF s p = (Except.ok t, s1, evs)) :
    GetTemplate parseF s1 p = (Except.ok t, s1, []) :=
  getTemplate_idem parseF s (siblingResolve p "/") t s1 evs hdev hempty h1

/-- Witness for C5 (amended): the concrete second lookup of `/x` on the
default-configured set. -/
theorem getTemplate_cache_idempotent_witness :
    GetTemplate parseF0 set0cached "/x" = (Except.ok tmpl0, set0cached, []) :=
  getTemplate_cache_idempotent parseF0 set0 "/x" tmpl0 set0cached
    [LoaderEvent.probeExists "/x", LoaderEvent.probeExists "/x.jet",
     LoaderEvent.openFile "/x.jet"] rfl (by decide) rfl

/-- Claim C9 counterexample: with `data = nil`, the root data context the
evaluator observes is whatever the pooled runtime state already held — here
the previous execution's `"stale"` binding — so the context field is not
reset to this invocation's own binding. -/
theorem pooled_context_leak_counterexample :
    (ExecuteI18N evalOk stalePooled baseTmpl none (Writer.mk 1) [] none).stateAtEval.context
      = RValue.valueOf (GoVal.vstr "stale") ∧
    (ExecuteI18N evalOk freshPooled baseTmpl none (Writer.mk 1) [] none).stateAtEval.context
      = RValue.zeroValue ∧
    RValue.valueOf (GoVal.vstr "stale") ≠ RValue.zeroValue :=
  ⟨rfl, rfl, by decide⟩

/-- Claim C9 (amended): `ExecuteI18N` sets the blocks, translator, variable
scope, owning set and output sink of the pooled runtime state to this
invocation's bindings before evaluation; the root data context is set only
when `data` is non-nil — when `data` is nil the pooled object's previous
context value remains in place and is observable during evaluation. -/
theorem executeI18N_field_resets (evalList : Evaluator) (pooled : Runtime)
    (t : Template) (translator : Option Translator) (w : Writer) (vars : VarMap)
    (data : Option GoVal) :
    (ExecuteI18N evalList pooled t translator w vars data).stateAtEval.blocks
      = t.processedBlocks ∧
    (ExecuteI18N evalList pooled t translator w vars data).stateAtEval.translator
      = translator ∧
    (ExecuteI18N evalList pooled t translator w vars data).stateAtEval.vars = vars ∧
    (ExecuteI18N evalList pooled t translator w vars data).stateAtEval.setId
      = t.setId ∧
    (ExecuteI18N evalList pooled t translator w vars data).stateAtEval.writer = w ∧
    (ExecuteI18N evalList pooled t translator w vars data).stateAtEval.context
      = (match data with
         | some d => RValue.valueOf d
         | none => pooled.context) := by
  refine ⟨?_, ?_, ?_, ?_, ?_, ?_⟩ <;>
  · unfold ExecuteI18N
    cases data <;> dsimp only <;> split <;> rfl

end Jet
